import Mathlib

set_option maxHeartbeats 1000000
set_option maxRecDepth 10000

namespace AgentExamples

/-! Shallow embedding of the AgentExamples repository: the Adapter Contract
(`chat`, `clear_chat`), the per-backend adapter state machines, the two
normalized tools (`date_tool`, `web_search`), and the Streamlit host
(`agent-ui.py`): plugin discovery (`get_available_agents`), agent switching
and the chat-input handler.

Python exceptions are modelled with `Except String`: a raised exception is
`Except.error msg` where `msg` is `str(e)`.  External SDK / network calls
(CrewAI kickoff, LangGraph graph stream, OpenAI Responses create, tavily
search, ...) are oracle parameters, so every theorem is quantified over all
possible behaviors of the external provider. -/

/-- One user- or assistant-authored message of a conversation
(`{"role": ..., "content": ...}` in the Python sources). -/
structure Turn where
  role : String
  content : String
  deriving DecidableEq, Repr

/-- `{"role": "user", "content": m}`. -/
def userTurn (m : String) : Turn := ⟨"user", m⟩

/-- `{"role": "assistant", "content": m}`. -/
def assistantTurn (m : String) : Turn := ⟨"assistant", m⟩

/-- Python `try: body except Exception as e: handler(e)` where the handler
returns normally: the value of the whole statement. -/
def pyTry {α : Type} (body : Except String α) (handler : String → α) : α :=
  match body with
  | .ok a => a
  | .error e => handler e

/-- Same `try/except` statement, kept in `Except` form: `.error` would mean an
exception escapes the method.  The catch-all handler turns every `.error` of
the body into a normal return, so the result is `.ok` in both branches. -/
def pyTryE {α : Type} (body : Except String α) (handler : String → α) :
    Except String α :=
  match body with
  | .ok a => .ok a
  | .error e => .ok (handler e)

/-! ### Minimal JSON values and `json.dumps` (default separators) -/

/-- JSON values, as returned by the tavily search provider. -/
inductive Json where
  | null
  | bool (b : Bool)
  | num (n : Int)
  | str (s : String)
  | arr (xs : List Json)
  | obj (kvs : List (String × Json))

mutual

/-- Python `json.dumps` with its default separators `", "` and `": "`
(string escaping is not modelled: provider strings are taken verbatim). -/
def dumps : Json → String
  | .null => "null"
  | .bool true => "true"
  | .bool false => "false"
  | .num n => toString n
  | .str s => "\"" ++ s ++ "\""
  | .arr xs => "[" ++ dumpsList xs ++ "]"
  | .obj kvs => "\x7b" ++ dumpsObj kvs ++ "\x7d"

/-- Comma-separated serialization of the elements of a JSON array. -/
def dumpsList : List Json → String
  | [] => ""
  | [x] => dumps x
  | x :: y :: t => dumps x ++ ", " ++ dumpsList (y :: t)

/-- Comma-separated serialization of the members of a JSON object. -/
def dumpsObj : List (String × Json) → String
  | [] => ""
  | [(k, v)] => "\"" ++ k ++ "\": " ++ dumps v
  | (k, v) :: m :: t => "\"" ++ k ++ "\": " ++ dumps v ++ ", " ++ dumpsObj (m :: t)

end

/-- Joins strings with `", "` (spec-side restatement of array serialization). -/
def joinComma : List String → String
  | [] => ""
  | [x] => x
  | x :: y :: t => x ++ ", " ++ joinComma (y :: t)

/-! ### String helpers (substring, suffix, slicing) -/

/-- `needle` is a prefix of `hay`, on character lists. -/
def charsBegins : List Char → List Char → Bool
  | [], _ => true
  | _ :: _, [] => false
  | a :: as, b :: bs => a == b && charsBegins as bs

/-- `needle` occurs as a contiguous sublist of `hay`. -/
def containsChars (needle : List Char) : List Char → Bool
  | [] => charsBegins needle []
  | c :: t => charsBegins needle (c :: t) || containsChars needle t

/-- Python `needle in hay` on strings. -/
def strContains (hay needle : String) : Bool :=
  containsChars needle.data hay.data

/-- Python `s.endswith(suf)`. -/
def strEndsWith (s suf : String) : Bool :=
  charsBegins suf.data.reverse s.data.reverse

/-- Python `file[:-3]` (drop the last three characters). -/
def moduleNameOf (file : String) : String :=
  ⟨file.data.take (file.data.length - 3)⟩

/-- A single-quote character, as a string. -/
def sq : String := String.singleton (Char.ofNat 39)

/-! ### Tool Library: `date_tool` and `web_search` -/

/-- A calendar date from the host clock's local time. -/
structure Date where
  year : Nat
  month : Nat
  day : Nat
  deriving DecidableEq, Repr

/-- Python `strftime("%B")`: the full month name. -/
def monthName : Nat → String
  | 1 => "January"
  | 2 => "February"
  | 3 => "March"
  | 4 => "April"
  | 5 => "May"
  | 6 => "June"
  | 7 => "July"
  | 8 => "August"
  | 9 => "September"
  | 10 => "October"
  | 11 => "November"
  | 12 => "December"
  | _ => ""

/-- The twelve full English month names. -/
def fullMonthNames : List String :=
  ["January", "February", "March", "April", "May", "June", "July",
   "August", "September", "October", "November", "December"]

/-- Python `strftime("%d")`: zero-padded two-digit day. -/
def zpad2 (n : Nat) : String :=
  if n < 10 then "0" ++ Nat.repr n else Nat.repr n

/-- Python `today.strftime("%B %d, %Y")`. -/
def strftime_B_d_Y (d : Date) : String :=
  monthName d.month ++ " " ++ zpad2 d.day ++ ", " ++ Nat.repr d.year

/-- `Agent.date_tool` (identical in every adapter module): today's local date
formatted `"%B %d, %Y"`. -/
def date_tool (today : Date) : String := strftime_B_d_Y today

/-- `s.data.all Char.isDigit`: every character is a decimal digit. -/
def allDigits (s : String) : Bool := s.data.all Char.isDigit

/-- The tavily search response: a dict that may or may not carry a
`"results"` key holding the raw result objects. -/
structure SearchResponse where
  results : Option (List Json)

/-- Python `search_response.get("results", [])`. -/
def web_search_results (resp : SearchResponse) : List Json :=
  resp.results.getD []

/-- The first log line of `web_search`:
`f"Web Search Results for '{query}':"`. -/
def webSearchLogLine (query : String) : String :=
  "Web Search Results for " ++ sq ++ query ++ sq ++ ":"

/-- `Agent.web_search` (identical in every adapter module) on a successful
provider call: returns `json.dumps(search_response.get("results", []))` and
the two printed log lines, in order. -/
def web_search (query : String) (resp : SearchResponse) : String × List String :=
  let results := dumps (Json.arr (web_search_results resp))
  (results, [webSearchLogLine query, results])

/-! ### Association-list helpers (Python dict semantics) -/

/-- Keys of an association list (a Python dict, in insertion order). -/
def keysOf (d : List (String × String)) : List String := d.map Prod.fst

/-- Python `d[k] = v`: update in place if the key exists (keeping its
position), otherwise append. -/
def dictSet (d : List (String × String)) (k v : String) :
    List (String × String) :=
  if k ∈ keysOf d then d.map (fun kv => if kv.1 = k then (k, v) else kv)
  else d ++ [(k, v)]

/-- Lookup with default over a generic association list. -/
def lookupD {α : Type} : List (String × α) → String → α → α
  | [], _, dflt => dflt
  | (k2, v) :: t, k, dflt => if k2 = k then v else lookupD t k dflt

/-- Insert-or-overwrite over a generic association list. -/
def assocSet {α : Type} : List (String × α) → String → α → List (String × α)
  | [], k, v => [(k, v)]
  | (k2, v2) :: t, k, v =>
      if k2 = k then (k, v) :: t else (k2, v2) :: assocSet t k v

/-! ### `crewai_agent.py` -/

namespace crewai_agent

/-- Adapter state: the explicit conversation history `self._messages`. -/
structure AgentState where
  messages : List Turn
  deriving DecidableEq, Repr

/-- State right after `Agent.__init__`: `self._messages = []`. -/
def initState : AgentState := ⟨[]⟩

/-- The fixed string returned by the `except` clause of `Agent.chat`. -/
def chatErrorText : String := "System Error: Unable to process request."

/-- The `try:` block of `Agent.chat`: `crew.kickoff` receives the user query
and the pre-call history; on success the history gains a user turn and an
assistant turn. `kickoff` is the external CrewAI call (may raise). -/
def chatBody (s : AgentState) (message : String)
    (kickoff : String → List Turn → Except String String) :
    Except String (String × AgentState) :=
  match kickoff message s.messages with
  | .ok response =>
      .ok (response, ⟨s.messages ++ [userTurn message, assistantTurn response]⟩)
  | .error e => .error e

/-- `Agent.chat`: the `try` body with its catch-all `except` clause. -/
def chat (s : AgentState) (message : String)
    (kickoff : String → List Turn → Except String String) :
    String × AgentState :=
  pyTry (chatBody s message kickoff) (fun _ => (chatErrorText, s))

/-- `Agent.chat` kept in `Except` form: `.error` would mean an exception
escapes the Adapter Contract boundary. -/
def chatE (s : AgentState) (message : String)
    (kickoff : String → List Turn → Except String String) :
    Except String (String × AgentState) :=
  pyTryE (chatBody s message kickoff) (fun _ => (chatErrorText, s))

/-- `Agent.clear_chat`: `self._messages = []; return True` — the assignment
is total, so the `except` branch returning `False` is unreachable. -/
def clear_chat (s : AgentState) : AgentState × Bool :=
  pyTry (.ok (⟨[]⟩, true)) (fun _ => (s, false))

end crewai_agent

/-! ### `langgraph_agent.py` -/

namespace langgraph_agent

/-- Adapter state: `self.thread_id` plus the `MemorySaver` checkpointer,
modelled as the per-thread message history it has checkpointed. -/
structure AgentState where
  thread_id : Nat
  memory : Nat → List Turn

/-- State right after `Agent.__init__`: `self.thread_id = 1` and a fresh
(empty) `MemorySaver`. -/
def initState : AgentState := ⟨1, fun _ => []⟩

/-- Reachable-state invariant: the checkpointer holds nothing for thread ids
that have never been used (ids above the current one). -/
def WF (s : AgentState) : Prop := ∀ t, s.thread_id < t → s.memory t = []

/-- The fixed string returned by the `except` clause of `Agent.chat`. -/
def chatErrorText : String := "Sorry, I encountered an error processing your request."

/-- The message sequence the graph runs on for the current thread: the
checkpointed history of `self.thread_id` plus the new user message. -/
def chatInput (s : AgentState) (message : String) : List Turn :=
  s.memory s.thread_id ++ [userTurn message]

/-- The `try:` block of `Agent.chat`: stream the graph on the current
thread's checkpointed history plus the new user message; the final streamed
content is the reply, and the checkpointer records the new turns. `backend`
is the external graph invocation (may raise). -/
def chatBody (s : AgentState) (message : String)
    (backend : List Turn → Except String String) :
    Except String (String × AgentState) :=
  match backend (chatInput s message) with
  | .ok response =>
      .ok (response,
        ⟨s.thread_id,
         fun t => if t = s.thread_id
           then chatInput s message ++ [assistantTurn response]
           else s.memory t⟩)
  | .error e => .error e

/-- `Agent.chat` with its catch-all `except` clause. -/
def chat (s : AgentState) (message : String)
    (backend : List Turn → Except String String) : String × AgentState :=
  pyTry (chatBody s message backend) (fun _ => (chatErrorText, s))

/-- `Agent.chat` kept in `Except` form. -/
def chatE (s : AgentState) (message : String)
    (backend : List Turn → Except String String) :
    Except String (String × AgentState) :=
  pyTryE (chatBody s message backend) (fun _ => (chatErrorText, s))

/-- The history the next `chat` call will observe. -/
def observableHistory (s : AgentState) : List Turn := s.memory s.thread_id

/-- `Agent.clear_chat`: `self._inc_thread_id()` — incrementing the thread id
abandons the old checkpoint; the assignment is total so `True` is returned. -/
def clear_chat (s : AgentState) : AgentState × Bool :=
  pyTry (.ok (⟨s.thread_id + 1, s.memory⟩, true)) (fun _ => (s, false))

end langgraph_agent

/-! ### `openai_responses_agent.py` -/

namespace openai_responses_agent

/-- Adapter state: `self.previous_response_id` (None on construction). -/
structure AgentState where
  previous_response_id : Option String
  deriving DecidableEq, Repr

/-- State right after `Agent.__init__`: `self.previous_response_id = None`. -/
def initState : AgentState := ⟨none⟩

/-- The fixed string returned by the `except` clause of `Agent.chat`. -/
def chatErrorText : String := "Sorry, I encountered an error processing your request."

/-- One item of the `input` list sent to `client.responses.create`. -/
structure InputItem where
  role : String
  content : String
  deriving DecidableEq, Repr

/-- The shape of the `client.responses.create` call made by `chat`: the
continuing branch passes `previous_response_id`, the fresh branch does not. -/
inductive CreateCall where
  | continuing (prev : String) (input : List InputItem)
  | fresh (input : List InputItem)
  deriving DecidableEq, Repr

/-- The response object returned by the Responses API (only the parts `chat`
consumes after `_process_response`). -/
structure Response where
  output_text : String
  id : String
  deriving DecidableEq, Repr

/-- The branch of `Agent.chat` on `if self.previous_response_id:` (Python
truthiness: `None` and the empty string both select the fresh branch). -/
def chatCreateCall (s : AgentState) (message : String) : CreateCall :=
  match s.previous_response_id with
  | some prev =>
      if prev.isEmpty then .fresh [⟨"user", message⟩]
      else .continuing prev [⟨"user", message⟩]
  | none => .fresh [⟨"user", message⟩]

/-- The `try:` block of `Agent.chat`: issue the create call for the branch
taken, then `_process_response` (tool-call loop plus possible follow-up
network call, abstracted as the oracle `process`, which may raise); on
success `previous_response_id` becomes the returned response id. -/
def chatBody (s : AgentState) (message : String)
    (backend : CreateCall → Except String Response)
    (process : Response → Except String (String × String)) :
    Except String (String × AgentState) :=
  match backend (chatCreateCall s message) with
  | .error e => .error e
  | .ok resp =>
      match process resp with
      | .error e => .error e
      | .ok (text, newId) => .ok (text, ⟨some newId⟩)

/-- `Agent.chat` with its catch-all `except` clause. -/
def chat (s : AgentState) (message : String)
    (backend : CreateCall → Except String Response)
    (process : Response → Except String (String × String)) :
    String × AgentState :=
  pyTry (chatBody s message backend process) (fun _ => (chatErrorText, s))

/-- `Agent.chat` kept in `Except` form. -/
def chatE (s : AgentState) (message : String)
    (backend : CreateCall → Except String Response)
    (process : Response → Except String (String × String)) :
    Except String (String × AgentState) :=
  pyTryE (chatBody s message backend process) (fun _ => (chatErrorText, s))

/-- `Agent.clear_chat`: `self.previous_response_id = None; return True`. -/
def clear_chat (s : AgentState) : AgentState × Bool :=
  pyTry (.ok (⟨none⟩, true)) (fun _ => (s, false))

end openai_responses_agent

/-! ### `openai_agents_sdk_agent.py` -/

namespace openai_agents_sdk_agent

/-- Adapter state: `self.conversation_history`. -/
structure AgentState where
  conversation_history : List Turn
  deriving DecidableEq, Repr

/-- State right after `Agent.__init__`: `self.conversation_history = []`. -/
def initState : AgentState := ⟨[]⟩

/-- The fixed string returned by the `except` clause of `Agent.chat`. -/
def chatErrorText : String := "Sorry, I encountered an error processing your request."

/-- The input `runner.run_sync` receives: the history after the user message
is appended (the append happens before the run). -/
def runInput (s : AgentState) (message : String) : List Turn :=
  s.conversation_history ++ [userTurn message]

/-- The `try:` block of `Agent.chat`: append the user turn, run the SDK
agent on the whole history, then append the assistant turn.  If `run_sync`
raises, the already-appended user turn remains in the history. -/
def chatBody (s : AgentState) (message : String)
    (run_sync : List Turn → Except String String) :
    Except String (String × AgentState) :=
  match run_sync (runInput s message) with
  | .ok out => .ok (out, ⟨runInput s message ++ [assistantTurn out]⟩)
  | .error e => .error e

/-- `Agent.chat` with its catch-all `except` clause (note: on failure the
user turn appended before `run_sync` is kept, as in the source). -/
def chat (s : AgentState) (message : String)
    (run_sync : List Turn → Except String String) : String × AgentState :=
  pyTry (chatBody s message run_sync)
    (fun _ => (chatErrorText, ⟨runInput s message⟩))

/-- `Agent.chat` kept in `Except` form. -/
def chatE (s : AgentState) (message : String)
    (run_sync : List Turn → Except String String) :
    Except String (String × AgentState) :=
  pyTryE (chatBody s message run_sync)
    (fun _ => (chatErrorText, ⟨runInput s message⟩))

/-- `Agent.clear_chat`: `self.conversation_history = []; return True`. -/
def clear_chat (s : AgentState) : AgentState × Bool :=
  pyTry (.ok (⟨[]⟩, true)) (fun _ => (s, false))

end openai_agents_sdk_agent

/-! ### `google_adk_agent.py` -/

namespace google_adk_agent

/-- Adapter state: the `InMemorySessionService` (session id → recorded
events) and the current `self._session_id`. -/
structure AgentState where
  sessions : List (String × List Turn)
  session_id : String
  deriving DecidableEq, Repr

/-- State right after `Agent.__init__` with the uuid4 value `sid`:
`create_session` eagerly installs an empty session for `sid`. -/
def initAgent (sid : String) : AgentState := ⟨assocSet [] sid [], sid⟩

/-- The event history the session service holds for the current session. -/
def sessionHistory (s : AgentState) : List Turn :=
  lookupD s.sessions s.session_id []

/-- The `try:` block of `Agent.chat`: run the ADK runner on the current
session (its recorded history plus the new user message); an empty final
response is replaced by a placeholder.  `runner` is the external ADK call
(may raise). -/
def chatBody (s : AgentState) (message : String)
    (runner : List Turn → Except String String) :
    Except String (String × AgentState) :=
  match runner (sessionHistory s ++ [userTurn message]) with
  | .ok text =>
      let out := if text.isEmpty then "Agent generated an empty response." else text
      .ok (out,
        ⟨assocSet s.sessions s.session_id
          (sessionHistory s ++ [userTurn message, assistantTurn out]),
         s.session_id⟩)
  | .error e => .error e

/-- `Agent.chat` with its `except` clause: `return f"System Error: {str(e)}"`
— the handler interpolates the exception text into the returned string. -/
def chat (s : AgentState) (message : String)
    (runner : List Turn → Except String String) : String × AgentState :=
  pyTry (chatBody s message runner) (fun e => ("System Error: " ++ e, s))

/-- `Agent.chat` kept in `Except` form. -/
def chatE (s : AgentState) (message : String)
    (runner : List Turn → Except String String) :
    Except String (String × AgentState) :=
  pyTryE (chatBody s message runner) (fun e => ("System Error: " ++ e, s))

/-- `Agent.clear_chat`: pick a fresh uuid4 `newSid`, `create_session` for it
(installing an empty session), return `True`. -/
def clear_chat (s : AgentState) (newSid : String) : AgentState × Bool :=
  pyTry (.ok (⟨assocSet s.sessions newSid [], newSid⟩, true))
    (fun _ => (s, false))

end google_adk_agent

/-! ### `smolagents_agent.py` -/

namespace smolagents_agent

/-- Adapter state: the `ToolCallingAgent` memory, modelled as the list of
prior conversation steps (`run(..., reset=False)` appends to it and
`memory.reset()` empties it, per the smolagents memory contract). -/
structure AgentState where
  memory : List Turn
  deriving DecidableEq, Repr

/-- State right after `Agent.__init__`: an empty agent memory. -/
def initState : AgentState := ⟨[]⟩

/-- The `try:` block of `Agent.chat`: `self._agent.run(task=message,
reset=False)` runs on the retained memory plus the new task. -/
def chatBody (s : AgentState) (message : String)
    (run : List Turn → Except String String) :
    Except String (String × AgentState) :=
  match run (s.memory ++ [userTurn message]) with
  | .ok out => .ok (out, ⟨s.memory ++ [userTurn message, assistantTurn out]⟩)
  | .error e => .error e

/-- `Agent.chat` with its `except` clause: `return f"System Error: {str(e)}"`
— the handler interpolates the exception text into the returned string. -/
def chat (s : AgentState) (message : String)
    (run : List Turn → Except String String) : String × AgentState :=
  pyTry (chatBody s message run) (fun e => ("System Error: " ++ e, s))

/-- `Agent.chat` kept in `Except` form. -/
def chatE (s : AgentState) (message : String)
    (run : List Turn → Except String String) :
    Except String (String × AgentState) :=
  pyTryE (chatBody s message run) (fun e => ("System Error: " ++ e, s))

/-- `Agent.clear_chat`: `self._agent.memory.reset()` empties the memory;
returns `True`. -/
def clear_chat (s : AgentState) : AgentState × Bool :=
  pyTry (.ok (⟨[]⟩, true)) (fun _ => (s, false))

end smolagents_agent

/-! ### `llama_index_agent.py` -/

namespace llama_index_agent

/-- Adapter state: the `ChatMemoryBuffer` contents. -/
structure AgentState where
  memory : List Turn
  deriving DecidableEq, Repr

/-- State right after `Agent.__init__`: an empty memory buffer. -/
def initState : AgentState := ⟨[]⟩

/-- The fixed string returned by the outer `except` clause of `Agent.chat`. -/
def chatErrorText : String := "Sorry, I encountered an error processing your request."

/-- The `RuntimeError` message that selects the nested-loop fallback. -/
def loopErrText : String := "asyncio.run() cannot be called from a running event loop"

/-- The `try:` block of `Agent.chat` including the nested `try/except
RuntimeError`: first attempt `asyncio.run`; if it raises with the
running-event-loop message, fall back to `loop.run_until_complete`;
any other exception is re-raised to the outer handler. -/
def chatBody (s : AgentState) (message : String)
    (attempt1 attempt2 : List Turn → Except String String) :
    Except String (String × AgentState) :=
  match attempt1 (s.memory ++ [userTurn message]) with
  | .ok r => .ok (r, ⟨s.memory ++ [userTurn message, assistantTurn r]⟩)
  | .error e =>
      if strContains e loopErrText then
        match attempt2 (s.memory ++ [userTurn message]) with
        | .ok r => .ok (r, ⟨s.memory ++ [userTurn message, assistantTurn r]⟩)
        | .error e2 => .error e2
      else .error e

/-- `Agent.chat` with its outer catch-all `except` clause. -/
def chat (s : AgentState) (message : String)
    (attempt1 attempt2 : List Turn → Except String String) :
    String × AgentState :=
  pyTry (chatBody s message attempt1 attempt2) (fun _ => (chatErrorText, s))

/-- `Agent.chat` kept in `Except` form. -/
def chatE (s : AgentState) (message : String)
    (attempt1 attempt2 : List Turn → Except String String) :
    Except String (String × AgentState) :=
  pyTryE (chatBody s message attempt1 attempt2) (fun _ => (chatErrorText, s))

/-- `Agent.clear_chat`: `self.memory.reset()`; returns `True`. -/
def clear_chat (s : AgentState) : AgentState × Bool :=
  pyTry (.ok (⟨[]⟩, true)) (fun _ => (s, false))

end llama_index_agent

/-! ### `agent-ui.py`: discovery, agent switching, chat input -/

namespace agent_ui

/-- What `module.Agent()` produced, as seen through `hasattr`/`callable`. -/
structure AgentObj where
  hasName : Bool
  name : String
  hasChat : Bool
  chatCallable : Bool
  deriving DecidableEq, Repr

/-- The possible outcomes of importing a candidate module and constructing
its `Agent` class. -/
inductive CandidateOutcome where
  | importError
  | noAgentClass
  | constructionError
  | constructedNone
  | constructed (obj : AgentObj)
  deriving DecidableEq, Repr

/-- `_is_valid_agent_instance`: not `None`, has a `name` attribute, and has a
callable `chat` attribute (note: the name is NOT checked for non-emptiness). -/
def is_valid_agent_instance : Option AgentObj → Bool
  | none => false
  | some o => o.hasName && (o.hasChat && o.chatCallable)

/-- `importlib.import_module` composed with `_safe_get_agent_instance`: the
instance a candidate module yields, or `none` when the import raises, the
module has no callable `Agent`, construction raises, construction returns
`None`, or the instance fails `_is_valid_agent_instance`. -/
def safe_get_agent_instance : CandidateOutcome → Option AgentObj
  | .importError => none
  | .noAgentClass => none
  | .constructionError => none
  | .constructedNone => none
  | .constructed obj =>
      if is_valid_agent_instance (some obj) then some obj else none

/-- The filename suffix selecting candidate modules. -/
def agentSuffixStr : String := "_agent.py"

/-- One iteration of the `get_available_agents` loop on a directory entry:
non-`*_agent.py` files are skipped; a candidate that yields no valid
instance is logged and skipped; otherwise
`agents[module_name] = temp_agent.name`. -/
def discoverStep (agents : List (String × String))
    (entry : String × CandidateOutcome) : List (String × String) :=
  if strEndsWith entry.1 agentSuffixStr then
    match safe_get_agent_instance entry.2 with
    | some obj => dictSet agents (moduleNameOf entry.1) obj.name
    | none => agents
  else agents

/-- `get_available_agents`: fold the discovery step over the directory
listing (each entry: a filename from `os.listdir('.')` paired with the
outcome of importing/constructing that candidate), starting from `{}`. -/
def get_available_agents (listing : List (String × CandidateOutcome)) :
    List (String × String) :=
  listing.foldl discoverStep []

/-- The Streamlit session state the script manipulates. -/
structure SessionState where
  current_agent_type : Option String
  agent : Option AgentObj
  messages : List Turn
  deriving DecidableEq, Repr

/-- The selection part of the script body: initialize
`current_agent_type` on first run; on a changed selection delete the held
agent and empty the messages; then, when no agent is held, construct a fresh
instance of the selected module (on failure a generic error is shown and no
agent is stored). -/
def runScriptSelection (s : SessionState) (selected : String)
    (outcome : CandidateOutcome) : SessionState :=
  let s1 := match s.current_agent_type with
    | none => { s with current_agent_type := some selected }
    | some _ => s
  let s2 := if s1.current_agent_type = some selected then s1
    else { s1 with current_agent_type := some selected,
                   agent := none, messages := [] }
  match s2.agent with
  | some _ => s2
  | none =>
      match safe_get_agent_instance outcome with
      | some obj => { s2 with agent := some obj }
      | none => s2

/-- The generic string the chat-input handler substitutes when
`agent.chat` raises. -/
def uiErrorText : String := "Error: Something went wrong."

/-- The chat-input handler: append the user turn, call `agent.chat` inside
`try/except` (substituting the generic error string), then append the
assistant turn.  Returns the new history and the displayed text. -/
def handleChatInput (msgs : List Turn) (input : String)
    (agentResult : Except String String) : List Turn × String :=
  let text := pyTry agentResult (fun _ => uiErrorText)
  (msgs ++ [userTurn input] ++ [assistantTurn text], text)

/-- The displayed chat reply kept in `Except` form: `.error` would mean the
handler lets an exception escape to the Streamlit page. -/
def uiChatResultE (agentResult : Except String String) : Except String String :=
  pyTryE agentResult (fun _ => uiErrorText)

end agent_ui

/-! ## Helper lemmas -/

/-- A `try/except Exception` statement whose handler returns normally never
lets an exception escape. -/
theorem pyTryE_isOk {α : Type} (body : Except String α) (handler : String → α) :
    ∃ r, pyTryE body handler = Except.ok r := by
  cases body <;> exact ⟨_, rfl⟩

/-- Looking up a key right after `assocSet` installs it yields its value. -/
theorem lookupD_assocSet_self {α : Type} (d : List (String × α)) (k : String)
    (v : α) (dflt : α) : lookupD (assocSet d k v) k dflt = v := by
  induction d with
  | nil => simp [assocSet, lookupD]
  | cons hd tl ih =>
      by_cases h : hd.1 = k
      · simp [assocSet, h, lookupD]
      · simpa [assocSet, h, lookupD] using ih

/-- A list is a prefix of itself followed by anything. -/
theorem charsBegins_append (n post : List Char) :
    charsBegins n (n ++ post) = true := by
  induction n with
  | nil => rfl
  | cons a as ih => simp [charsBegins, ih]

/-- A prefix match makes the containment check succeed. -/
theorem containsChars_of_begins (needle hay : List Char)
    (h : charsBegins needle hay = true) : containsChars needle hay = true := by
  cases hay with
  | nil => simpa [containsChars] using h
  | cons c t => simp [containsChars, h]

/-- The containment check finds the needle wherever it sits. -/
theorem containsChars_sandwich (needle pre post : List Char) :
    containsChars needle (pre ++ (needle ++ post)) = true := by
  induction pre with
  | nil => exact containsChars_of_begins _ _ (charsBegins_append _ _)
  | cons p ps ih => simp [containsChars, ih]

/-- Python `q in s` holds whenever `s` decomposes around `q`. -/
theorem strContains_of_data (s q : String) (pre post : List Char)
    (h : s.data = pre ++ (q.data ++ post)) : strContains s q = true := by
  unfold strContains
  rw [h]
  exact containsChars_sandwich _ _ _

/-- Array serialization is the comma-join of the element serializations. -/
theorem dumpsList_eq_joinComma : ∀ xs : List Json,
    dumpsList xs = joinComma (xs.map dumps)
  | [] => by simp [dumpsList, joinComma]
  | [x] => by simp [dumpsList, joinComma]
  | x :: y :: t => by
      have ih := dumpsList_eq_joinComma (y :: t)
      simp [dumpsList, joinComma, ih]

/-- Days up to 31 render as exactly two digits under `%d`. -/
theorem zpad2_spec : ∀ n : Nat, n < 32 →
    (zpad2 n).length = 2 ∧ allDigits (zpad2 n) = true := by decide

/-- `Nat.toDigitsCore` emits one character per decimal digit (given enough
fuel), on top of the accumulator. -/
theorem toDigitsCore_length_log : ∀ (fuel n : Nat) (ds : List Char),
    n < 10 ^ fuel → 0 < fuel →
    (Nat.toDigitsCore 10 fuel n ds).length = Nat.log 10 n + 1 + ds.length := by
  intro fuel
  induction fuel with
  | zero => intro n ds _ h0; exact absurd h0 (by omega)
  | succ f ih =>
      intro n ds hlt _
      by_cases hdiv : n / 10 = 0
      · have hn10 : n < 10 := (Nat.div_eq_zero_iff (by omega)).mp hdiv
        have hlog : Nat.log 10 n = 0 := Nat.log_eq_zero_iff.mpr (Or.inl hn10)
        simp [Nat.toDigitsCore, hdiv, hlog]
        omega
      · have hge : 10 ≤ n := by
          rcases Nat.lt_or_ge n 10 with h | h
          · exact absurd ((Nat.div_eq_zero_iff (by omega)).mpr h) hdiv
          · exact h
        have hfpos : 0 < f := by
          rcases Nat.eq_zero_or_pos f with rfl | h
          · simp at hlt; omega
          · exact h
        have hlt2 : n / 10 < 10 ^ f := by
          have : n < 10 * 10 ^ f := by
            have : (10:Nat) ^ (f + 1) = 10 * 10 ^ f := by ring
            omega
          exact Nat.div_lt_of_lt_mul (by omega)
        have recEq : Nat.toDigitsCore 10 (f + 1) n ds
            = Nat.toDigitsCore 10 f (n / 10) (Nat.digitChar (n % 10) :: ds) := by
          simp [Nat.toDigitsCore, hdiv]
        rw [recEq, ih (n / 10) _ hlt2 hfpos]
        have hlog : Nat.log 10 (n / 10) = Nat.log 10 n - 1 := Nat.log_div_base 10 n
        have hpos : 0 < Nat.log 10 n := Nat.log_pos (by omega) hge
        simp only [List.length_cons]
        omega

/-- Every character `Nat.toDigitsCore` emits is a decimal digit. -/
theorem toDigitsCore_all_digits : ∀ (fuel n : Nat) (ds : List Char),
    (∀ c ∈ ds, c.isDigit = true) →
    ∀ c ∈ Nat.toDigitsCore 10 fuel n ds, c.isDigit = true := by
  have hchar : ∀ m : Nat, m < 10 → (Nat.digitChar m).isDigit = true := by decide
  intro fuel
  induction fuel with
  | zero => intro n ds hds; simpa [Nat.toDigitsCore] using hds
  | succ f ih =>
      intro n ds hds
      by_cases hdiv : n / 10 = 0
      · simp only [Nat.toDigitsCore, hdiv, if_true]
        intro c hc
        rcases List.mem_cons.mp hc with rfl | h
        · exact hchar _ (Nat.mod_lt _ (by omega))
        · exact hds _ h
      · simp only [Nat.toDigitsCore, hdiv, if_false]
        refine ih (n / 10) _ ?_
        intro c hc
        rcases List.mem_cons.mp hc with rfl | h
        · exact hchar _ (Nat.mod_lt _ (by omega))
        · exact hds _ h

/-- The decimal rendering of `n` has `log 10 n + 1` characters. -/
theorem repr_length_eq (n : Nat) : (Nat.repr n).length = Nat.log 10 n + 1 := by
  have h1 : n < 10 ^ (n + 1) := by
    calc n < 10 ^ n := Nat.lt_pow_self (by omega) n
    _ ≤ 10 ^ (n + 1) := Nat.pow_le_pow_right (by omega) (Nat.le_succ n)
  have := toDigitsCore_length_log (n + 1) n [] h1 (Nat.succ_pos n)
  simpa [Nat.repr, Nat.toDigits, List.asString, String.length] using this

/-- The decimal rendering of `n` consists of digits only. -/
theorem allDigits_repr (n : Nat) : allDigits (Nat.repr n) = true := by
  have h := toDigitsCore_all_digits (n + 1) n [] (by intro c hc; cases hc)
  simp only [allDigits, Nat.repr, Nat.toDigits, List.asString, List.all_eq_true]
  exact fun c hc => h c hc

/-- Four-digit years render as exactly four digits under `%Y`. -/
theorem yearRepr_spec (n : Nat) (h1 : 1000 ≤ n) (h2 : n ≤ 9999) :
    (Nat.repr n).length = 4 ∧ allDigits (Nat.repr n) = true := by
  refine ⟨?_, allDigits_repr n⟩
  have hlog : Nat.log 10 n = 3 := by
    apply Nat.log_eq_of_pow_le_of_lt_pow
    · norm_num; omega
    · norm_num; omega
  rw [repr_length_eq, hlog]

/-- Months 1..12 render as a full English month name under `%B`. -/
theorem monthName_spec : ∀ n : Nat, n < 13 → 1 ≤ n →
    monthName n ∈ fullMonthNames := by decide

/-- A key present in `dictSet d k v` was present before or is `k`. -/
theorem mem_keysOf_dictSet {d : List (String × String)} {k v m : String}
    (hm : m ∈ keysOf (dictSet d k v)) : m ∈ keysOf d ∨ m = k := by
  unfold dictSet at hm
  by_cases hk : k ∈ keysOf d
  · rw [if_pos hk] at hm
    simp only [keysOf, List.map_map, List.mem_map, Function.comp] at hm
    rcases hm with ⟨kv, hkv, heq⟩
    by_cases h : kv.1 = k
    · right
      rw [if_pos h] at heq
      exact heq.symm
    · left
      rw [if_neg h] at heq
      exact List.mem_map.mpr ⟨kv, hkv, heq⟩
  · rw [if_neg hk] at hm
    simp only [keysOf, List.map_append, List.mem_append, List.map_cons,
      List.map_nil, List.mem_singleton] at hm
    rcases hm with h | h
    · exact Or.inl h
    · exact Or.inr h

/-- `dictSet` introduces no key other than `k`. -/
theorem not_mem_keysOf_dictSet {d : List (String × String)} {k v m : String}
    (h1 : m ∉ keysOf d) (h2 : m ≠ k) : m ∉ keysOf (dictSet d k v) :=
  fun h => (mem_keysOf_dictSet h).elim h1 h2

/-- Overwriting an existing key puts the new pair in the dict. -/
theorem mem_map_overwrite (d : List (String × String)) (k v : String)
    (hk : k ∈ keysOf d) :
    (k, v) ∈ d.map (fun kv => if kv.1 = k then (k, v) else kv) := by
  induction d with
  | nil => simp [keysOf] at hk
  | cons hd tl ih =>
      by_cases h : hd.1 = k
      · simp [List.map_cons, h]
      · have htl : k ∈ keysOf tl := by
          simp only [keysOf, List.map_cons, List.mem_cons] at hk
          rcases hk with h2 | h2
          · exact absurd h2.symm h
          · exact h2
        simp only [List.map_cons, List.mem_cons]
        exact Or.inr (ih htl)

/-- After `d[k] = v`, the pair `(k, v)` is in the dict. -/
theorem mem_dictSet_self (d : List (String × String)) (k v : String) :
    (k, v) ∈ dictSet d k v := by
  unfold dictSet
  by_cases hk : k ∈ keysOf d
  · rw [if_pos hk]
    exact mem_map_overwrite d k v hk
  · rw [if_neg hk]
    exact List.mem_append_right _ (List.mem_singleton.mpr rfl)

/-- `dictSet` leaves pairs with other keys untouched. -/
theorem mem_dictSet_of_ne {d : List (String × String)} {k v m w : String}
    (hm : (m, w) ∈ d) (hne : m ≠ k) : (m, w) ∈ dictSet d k v := by
  unfold dictSet
  by_cases hk : k ∈ keysOf d
  · rw [if_pos hk]
    exact List.mem_map.mpr ⟨(m, w), hm, by simp [hne]⟩
  · rw [if_neg hk]
    exact List.mem_append_left _ hm

/-- Setting an absent key appends the pair. -/
theorem dictSet_of_not_mem {d : List (String × String)} {k v : String}
    (h : k ∉ keysOf d) : dictSet d k v = d ++ [(k, v)] := by
  unfold dictSet
  rw [if_neg h]

namespace agent_ui

/-- A discovery step on a skipped candidate leaves the dict unchanged. -/
theorem discoverStep_skip {acc : List (String × String)}
    {e : String × CandidateOutcome}
    (h : strEndsWith e.1 agentSuffixStr = false ∨
         safe_get_agent_instance e.2 = none) :
    discoverStep acc e = acc := by
  unfold discoverStep
  rcases h with h | h
  · simp [h]
  · by_cases hend : strEndsWith e.1 agentSuffixStr = true
    · simp [hend, h]
    · simp [hend]

/-- A discovery step on a surviving candidate records its module name and
display name. -/
theorem discoverStep_add {acc : List (String × String)}
    {e : String × CandidateOutcome} {obj : AgentObj}
    (hend : strEndsWith e.1 agentSuffixStr = true)
    (hobj : safe_get_agent_instance e.2 = some obj) :
    discoverStep acc e = dictSet acc (moduleNameOf e.1) obj.name := by
  unfold discoverStep
  simp [hend, hobj]

/-- If no remaining candidate can contribute the key `m`, the discovery fold
never adds it. -/
theorem discover_keys_not_mem :
    ∀ (listing : List (String × CandidateOutcome))
      (acc : List (String × String)) (m : String),
      m ∉ keysOf acc →
      (∀ e ∈ listing, strEndsWith e.1 agentSuffixStr = true →
        moduleNameOf e.1 = m → safe_get_agent_instance e.2 = none) →
      m ∉ keysOf (listing.foldl discoverStep acc) := by
  intro listing
  induction listing with
  | nil => intro acc m hacc _; simpa using hacc
  | cons e tl ih =>
      intro acc m hacc hbad
      simp only [List.foldl_cons]
      apply ih
      · by_cases hend : strEndsWith e.1 agentSuffixStr = true
        · cases hsafe : safe_get_agent_instance e.2 with
          | none => rw [discoverStep_skip (Or.inr hsafe)]; exact hacc
          | some obj =>
              have hne : moduleNameOf e.1 ≠ m := by
                intro hmod
                have h0 := hbad e (List.mem_cons_self _ _) hend hmod
                rw [h0] at hsafe
                cases hsafe
              rw [discoverStep_add hend hsafe]
              exact not_mem_keysOf_dictSet hacc (fun h => hne h.symm)
        · rw [discoverStep_skip (Or.inl (by simpa using hend))]
          exact hacc
      · intro e2 he2 h1 h2
        exact hbad e2 (List.mem_cons_of_mem _ he2) h1 h2

/-- A recorded pair survives the rest of the fold as long as no remaining
candidate shares its module name. -/
theorem discover_mem_preserved :
    ∀ (listing : List (String × CandidateOutcome))
      (acc : List (String × String)) (m w : String),
      (m, w) ∈ acc →
      (∀ e ∈ listing, strEndsWith e.1 agentSuffixStr = true →
        moduleNameOf e.1 ≠ m) →
      (m, w) ∈ listing.foldl discoverStep acc := by
  intro listing
  induction listing with
  | nil => intro acc m w hacc _; simpa using hacc
  | cons e tl ih =>
      intro acc m w hacc hne
      simp only [List.foldl_cons]
      apply ih
      · by_cases hend : strEndsWith e.1 agentSuffixStr = true
        · cases hsafe : safe_get_agent_instance e.2 with
          | none => rw [discoverStep_skip (Or.inr hsafe)]; exact hacc
          | some obj =>
              rw [discoverStep_add hend hsafe]
              exact mem_dictSet_of_ne hacc
                (fun h => hne e (List.mem_cons_self _ _) hend h.symm)
        · rw [discoverStep_skip (Or.inl (by simpa using hend))]
          exact hacc
      · intro e2 he2 h1
        exact hne e2 (List.mem_cons_of_mem _ he2) h1

/-- A surviving candidate's module name and display name end up in the
discovered map, provided module names are unique in the listing. -/
theorem discover_mem_of_entry :
    ∀ (listing : List (String × CandidateOutcome))
      (acc : List (String × String)) (file : String) (oc : CandidateOutcome)
      (obj : AgentObj),
      ((listing.filter (fun e => strEndsWith e.1 agentSuffixStr)).map
        (fun e => moduleNameOf e.1)).Nodup →
      (file, oc) ∈ listing →
      strEndsWith file agentSuffixStr = true →
      safe_get_agent_instance oc = some obj →
      (moduleNameOf file, obj.name) ∈ listing.foldl discoverStep acc := by
  intro listing
  induction listing with
  | nil => intro acc file oc obj _ hmem; cases hmem
  | cons e tl ih =>
      intro acc file oc obj hnodup hmem hend hobj
      simp only [List.foldl_cons]
      rcases List.mem_cons.mp hmem with heq | htl
      · subst heq
        rw [discoverStep_add hend hobj]
        apply discover_mem_preserved
        · exact mem_dictSet_self _ _ _
        · intro e2 he2 hend2 hmod
          have hfil : (List.filter (fun e => strEndsWith e.1 agentSuffixStr)
              ((file, oc) :: tl)) = (file, oc) ::
              tl.filter (fun e => strEndsWith e.1 agentSuffixStr) := by
            simp [List.filter_cons, hend]
          rw [hfil, List.map_cons, List.nodup_cons] at hnodup
          exact hnodup.1 (List.mem_map.mpr
            ⟨e2, List.mem_filter.mpr ⟨he2, hend2⟩, hmod⟩)
      · have hnodup2 : ((tl.filter (fun e => strEndsWith e.1 agentSuffixStr)).map
            (fun e => moduleNameOf e.1)).Nodup := by
          rcases hfe : strEndsWith e.1 agentSuffixStr with _ | _
          · simpa [List.filter_cons, hfe] using hnodup
          · rw [List.filter_cons, hfe] at hnodup
            simp only [if_true] at hnodup
            rw [List.map_cons, List.nodup_cons] at hnodup
            exact hnodup.2
        exact ih _ file oc obj hnodup2 htl hend hobj

/-- With unique module names, discovery is exactly the listing-order
sequence of surviving candidates (processing follows `os.listdir` order; no
sorting happens anywhere). -/
theorem discover_order :
    ∀ (listing : List (String × CandidateOutcome))
      (acc : List (String × String)),
      (∀ e ∈ listing, strEndsWith e.1 agentSuffixStr = true →
        moduleNameOf e.1 ∉ keysOf acc) →
      ((listing.filter (fun e => strEndsWith e.1 agentSuffixStr)).map
        (fun e => moduleNameOf e.1)).Nodup →
      listing.foldl discoverStep acc = acc ++ listing.filterMap (fun e =>
        if strEndsWith e.1 agentSuffixStr then
          (safe_get_agent_instance e.2).map
            (fun obj => (moduleNameOf e.1, obj.name))
        else none) := by
  intro listing
  induction listing with
  | nil => intro acc _ _; simp
  | cons e tl ih =>
      intro acc hkeys hnodup
      simp only [List.foldl_cons, List.filterMap_cons]
      rcases hend : strEndsWith e.1 agentSuffixStr with _ | _
      · rw [discoverStep_skip (Or.inl hend)]
        simp only [Bool.false_eq_true, if_false]
        apply ih acc
        · intro e2 he2 h1
          exact hkeys e2 (List.mem_cons_of_mem _ he2) h1
        · simpa [List.filter_cons, hend] using hnodup
      · have hnodup' := hnodup
        rw [List.filter_cons, hend] at hnodup'
        simp only [if_true] at hnodup'
        rw [List.map_cons, List.nodup_cons] at hnodup'
        cases hsafe : safe_get_agent_instance e.2 with
        | none =>
            rw [discoverStep_skip (Or.inr hsafe)]
            simp only [if_true, Option.map_none, hsafe]
            apply ih acc
            · intro e2 he2 h1
              exact hkeys e2 (List.mem_cons_of_mem _ he2) h1
            · exact hnodup'.2
        | some obj =>
            rw [discoverStep_add hend hsafe,
              dictSet_of_not_mem (hkeys e (List.mem_cons_self _ _) hend)]
            rw [ih (acc ++ [(moduleNameOf e.1, obj.name)]) ?_ hnodup'.2]
            · simp [hsafe]
            · intro e2 he2 h1
              simp only [keysOf, List.map_append, List.mem_append,
                List.map_cons, List.map_nil, List.mem_singleton, not_or]
              constructor
              · exact hkeys e2 (List.mem_cons_of_mem _ he2) h1
              · intro hmod
                exact hnodup'.1 (List.mem_map.mpr
                  ⟨e2, List.mem_filter.mpr ⟨he2, h1⟩, hmod⟩)

end agent_ui

/-! ## Claim theorems -/

/-- C1 counterexample: the Google ADK and SmolAgents adapters do NOT return
a fixed generic error string — their `except` clauses return
`f"System Error: {str(e)}"`, which contains the original exception text
(here a credential-bearing message), and the returned string varies with the
exception.  This refutes the claim for those two adapters. -/
theorem c1_error_string_leak_counterexample :
    (google_adk_agent.chat (google_adk_agent.initAgent "s1") "hi"
        (fun _ => Except.error "Invalid API key tvly-secret123")).1
      = "System Error: Invalid API key tvly-secret123"
    ∧ strContains (google_adk_agent.chat (google_adk_agent.initAgent "s1") "hi"
        (fun _ => Except.error "Invalid API key tvly-secret123")).1
        "Invalid API key tvly-secret123" = true
    ∧ (smolagents_agent.chat smolagents_agent.initState "hi"
        (fun _ => Except.error "Invalid API key tvly-secret123")).1
      = "System Error: Invalid API key tvly-secret123"
    ∧ (google_adk_agent.chat (google_adk_agent.initAgent "s1") "hi"
        (fun _ => Except.error "Invalid API key tvly-secret123")).1
      ≠ (google_adk_agent.chat (google_adk_agent.initAgent "s1") "hi"
        (fun _ => Except.error "boom")).1 := by
  refine ⟨rfl, ?_, rfl, ?_⟩ <;> decide

/-- C1 (amended): every internal fault during a chat turn is caught inside
the adapter; the CrewAI, LangGraph, Llama-Index, OpenAI Responses and OpenAI
Agents SDK adapters convert it to a fixed generic string independent of the
exception, while the Google ADK and SmolAgents adapters return
`"System Error: "` followed by the exception text (so their error string is
not fixed and embeds the internal exception message). -/
theorem c1_amended_error_strings (m e : String) :
    (∀ s : crewai_agent.AgentState,
        (crewai_agent.chat s m (fun _ _ => Except.error e)).1
          = crewai_agent.chatErrorText)
    ∧ (∀ s : langgraph_agent.AgentState,
        (langgraph_agent.chat s m (fun _ => Except.error e)).1
          = langgraph_agent.chatErrorText)
    ∧ (∀ (s : openai_responses_agent.AgentState) process,
        (openai_responses_agent.chat s m (fun _ => Except.error e) process).1
          = openai_responses_agent.chatErrorText)
    ∧ (∀ s : openai_agents_sdk_agent.AgentState,
        (openai_agents_sdk_agent.chat s m (fun _ => Except.error e)).1
          = openai_agents_sdk_agent.chatErrorText)
    ∧ (∀ (s : llama_index_agent.AgentState) (e2 : String),
        (llama_index_agent.chat s m (fun _ => Except.error e)
          (fun _ => Except.error e2)).1 = llama_index_agent.chatErrorText)
    ∧ (∀ s : google_adk_agent.AgentState,
        (google_adk_agent.chat s m (fun _ => Except.error e)).1
          = "System Error: " ++ e)
    ∧ (∀ s : smolagents_agent.AgentState,
        (smolagents_agent.chat s m (fun _ => Except.error e)).1
          = "System Error: " ++ e) := by
  refine ⟨fun _ => rfl, fun _ => rfl, fun _ _ => rfl, fun _ => rfl,
    ?_, fun _ => rfl, fun _ => rfl⟩
  intro s e2
  simp only [llama_index_agent.chat, llama_index_agent.chatBody, pyTry]
  by_cases h : strContains e llama_index_agent.loopErrText = true
  · simp [h]
  · simp [h]

/-- C2: for every adapter and the host chat-input handler, `chat` is total:
for any input string (empty or arbitrarily long) and any behavior of the
external backend — including one that raises — the method returns normally
(`Except.ok`); no exception crosses the Adapter Contract boundary. -/
theorem c2_chat_total :
    (∀ (s : crewai_agent.AgentState) (m : String) kick,
        ∃ r, crewai_agent.chatE s m kick = Except.ok r)
    ∧ (∀ (s : langgraph_agent.AgentState) (m : String) backend,
        ∃ r, langgraph_agent.chatE s m backend = Except.ok r)
    ∧ (∀ (s : openai_responses_agent.AgentState) (m : String) backend process,
        ∃ r, openai_responses_agent.chatE s m backend process = Except.ok r)
    ∧ (∀ (s : openai_agents_sdk_agent.AgentState) (m : String) run_sync,
        ∃ r, openai_agents_sdk_agent.chatE s m run_sync = Except.ok r)
    ∧ (∀ (s : google_adk_agent.AgentState) (m : String) runner,
        ∃ r, google_adk_agent.chatE s m runner = Except.ok r)
    ∧ (∀ (s : smolagents_agent.AgentState) (m : String) run,
        ∃ r, smolagents_agent.chatE s m run = Except.ok r)
    ∧ (∀ (s : llama_index_agent.AgentState) (m : String) a1 a2,
        ∃ r, llama_index_agent.chatE s m a1 a2 = Except.ok r)
    ∧ (∀ agentResult, ∃ t, agent_ui.uiChatResultE agentResult = Except.ok t) :=
  ⟨fun _ _ _ => pyTryE_isOk _ _, fun _ _ _ => pyTryE_isOk _ _,
   fun _ _ _ _ => pyTryE_isOk _ _, fun _ _ _ => pyTryE_isOk _ _,
   fun _ _ _ => pyTryE_isOk _ _, fun _ _ _ => pyTryE_isOk _ _,
   fun _ _ _ _ => pyTryE_isOk _ _, fun _ => pyTryE_isOk _ _⟩

/-- C10: for the CrewAI, OpenAI Agents SDK and OpenAI Responses adapters,
`clear_chat` always returns `True`: its reset action is a plain attribute
assignment, modelled as a total update, so the `except` branch returning
`False` is unreachable. -/
theorem c10_clear_chat_always_true :
    (∀ s : crewai_agent.AgentState, (crewai_agent.clear_chat s).2 = true)
    ∧ (∀ s : openai_agents_sdk_agent.AgentState,
        (openai_agents_sdk_agent.clear_chat s).2 = true)
    ∧ (∀ s : openai_responses_agent.AgentState,
        (openai_responses_agent.clear_chat s).2 = true) :=
  ⟨fun _ => rfl, fun _ => rfl, fun _ => rfl⟩

/-- C8: `date_tool` formats the host-clock local date exactly as
`"Month DD, YYYY"`: a full month name, a zero-padded two-digit day and a
four-digit year; and it is a pure function of the calendar date, so two
calls on the same calendar day return identical strings. -/
theorem c8_date_format (d : Date) (hm1 : 1 ≤ d.month) (hm2 : d.month ≤ 12)
    (hd : d.day ≤ 31) (hy1 : 1000 ≤ d.year) (hy2 : d.year ≤ 9999) :
    (∃ dd yyyy : String,
        date_tool d = monthName d.month ++ " " ++ dd ++ ", " ++ yyyy
        ∧ dd.length = 2 ∧ allDigits dd = true
        ∧ yyyy.length = 4 ∧ allDigits yyyy = true)
    ∧ monthName d.month ∈ fullMonthNames
    ∧ ∀ d2 : Date, d2.year = d.year → d2.month = d.month → d2.day = d.day →
        date_tool d2 = date_tool d := by
  refine ⟨⟨zpad2 d.day, Nat.repr d.year, rfl, ?_, ?_, ?_, ?_⟩, ?_, ?_⟩
  · exact (zpad2_spec d.day (by omega)).1
  · exact (zpad2_spec d.day (by omega)).2
  · exact (yearRepr_spec d.year hy1 hy2).1
  · exact (yearRepr_spec d.year hy1 hy2).2
  · exact monthName_spec d.month (by omega) hm1
  · intro d2 h1 h2 h3
    unfold date_tool strftime_B_d_Y
    rw [h1, h2, h3]

/-- C8 witness: the theorem applied to March 7, 2025 — `date_tool` yields
the spec's example rendering `"March 07, 2025"`. -/
theorem c8_date_format_witness :
    date_tool ⟨2025, 3, 7⟩ = "March 07, 2025"
    ∧ monthName 3 ∈ fullMonthNames := by
  constructor
  · decide
  · exact (c8_date_format ⟨2025, 3, 7⟩ (by decide) (by decide) (by decide)
      (by decide) (by decide)).2.1

/-- C9: on a successful provider call, `web_search` returns exactly the
provider's raw result items serialized as a JSON array (the comma-join of
the items' own serializations, in order, not reformatted), and its printed
log consists of a line containing the query followed by the serialized
result itself. -/
theorem c9_web_search_serialization (q : String) (resp : SearchResponse) :
    (web_search q resp).1
      = "[" ++ joinComma ((web_search_results resp).map dumps) ++ "]"
    ∧ (web_search q resp).2
      = [webSearchLogLine q, (web_search q resp).1]
    ∧ strContains (webSearchLogLine q) q = true
    ∧ (web_search q resp).1 ∈ (web_search q resp).2 := by
  refine ⟨?_, rfl, ?_, ?_⟩
  · show dumps (Json.arr (web_search_results resp)) = _
    rw [dumps, dumpsList_eq_joinComma]
  · apply strContains_of_data _ _
      ("Web Search Results for " ++ sq).data (sq ++ ":").data
    simp [webSearchLogLine, String.data_append, List.append_assoc]
  · show (web_search q resp).1 ∈ [webSearchLogLine q, (web_search q resp).1]
    simp

/-- C3: after `clear_chat` succeeds, the next `chat` call behaves exactly as
on a freshly constructed adapter: the CrewAI / Agents SDK / SmolAgents /
Llama-Index adapters run from state equal to the initial one, the OpenAI
Responses adapter takes its new-conversation branch (its create call is
`fresh`, no `previous_response_id`), the Agents SDK adapter runs on just the
new user message, LangGraph's new thread has an empty checkpoint, and the
Google ADK adapter's new session holds an empty history. -/
theorem c3_reset_then_fresh (m : String) :
    (∀ (s : crewai_agent.AgentState) kick,
        crewai_agent.chat (crewai_agent.clear_chat s).1 m kick
          = crewai_agent.chat crewai_agent.initState m kick)
    ∧ (∀ s : langgraph_agent.AgentState, langgraph_agent.WF s →
        langgraph_agent.chatInput (langgraph_agent.clear_chat s).1 m
          = [userTurn m]
        ∧ ∀ backend,
            (langgraph_agent.chat (langgraph_agent.clear_chat s).1 m backend).1
              = (langgraph_agent.chat langgraph_agent.initState m backend).1)
    ∧ (∀ s : openai_responses_agent.AgentState,
        openai_responses_agent.chatCreateCall
            (openai_responses_agent.clear_chat s).1 m
          = openai_responses_agent.CreateCall.fresh [⟨"user", m⟩]
        ∧ ∀ backend process,
            openai_responses_agent.chat (openai_responses_agent.clear_chat s).1
                m backend process
              = openai_responses_agent.chat openai_responses_agent.initState
                m backend process)
    ∧ (∀ s : openai_agents_sdk_agent.AgentState,
        openai_agents_sdk_agent.runInput
            (openai_agents_sdk_agent.clear_chat s).1 m = [userTurn m]
        ∧ ∀ run_sync,
            openai_agents_sdk_agent.chat (openai_agents_sdk_agent.clear_chat s).1
                m run_sync
              = openai_agents_sdk_agent.chat openai_agents_sdk_agent.initState
                m run_sync)
    ∧ (∀ (s : google_adk_agent.AgentState) (sid : String),
        google_adk_agent.sessionHistory (google_adk_agent.clear_chat s sid).1
          = []
        ∧ ∀ runner,
            (google_adk_agent.chat (google_adk_agent.clear_chat s sid).1
                m runner).1
              = (google_adk_agent.chat (google_adk_agent.initAgent sid)
                m runner).1)
    ∧ (∀ (s : smolagents_agent.AgentState) run,
        smolagents_agent.chat (smolagents_agent.clear_chat s).1 m run
          = smolagents_agent.chat smolagents_agent.initState m run)
    ∧ (∀ (s : llama_index_agent.AgentState) a1 a2,
        llama_index_agent.chat (llama_index_agent.clear_chat s).1 m a1 a2
          = llama_index_agent.chat llama_index_agent.initState m a1 a2) := by
  refine ⟨fun _ _ => rfl, ?_, fun s => ⟨rfl, fun _ _ => rfl⟩,
    fun s => ⟨rfl, fun _ => rfl⟩, ?_, fun _ _ => rfl, fun _ _ _ => rfl⟩
  · intro s hwf
    have hmem : s.memory (s.thread_id + 1) = [] := hwf _ (Nat.lt_succ_self _)
    have h1 : langgraph_agent.chatInput (langgraph_agent.clear_chat s).1 m
        = [userTurn m] := by
      simp [langgraph_agent.chatInput, langgraph_agent.clear_chat, pyTry, hmem]
    refine ⟨h1, fun backend => ?_⟩
    have h2 : langgraph_agent.chatInput langgraph_agent.initState m
        = [userTurn m] := rfl
    simp only [langgraph_agent.chat, langgraph_agent.chatBody, h1, h2]
    cases hbk : backend [userTurn m] <;> simp [pyTry, hbk]
  · intro s sid
    have h1 : google_adk_agent.sessionHistory
        (google_adk_agent.clear_chat s sid).1 = [] := by
      simp only [google_adk_agent.clear_chat, google_adk_agent.sessionHistory,
        pyTry]
      exact lookupD_assocSet_self _ _ _ _
    refine ⟨h1, fun runner => ?_⟩
    have h2 : google_adk_agent.sessionHistory (google_adk_agent.initAgent sid)
        = [] := by
      simp only [google_adk_agent.initAgent, google_adk_agent.sessionHistory]
      exact lookupD_assocSet_self _ _ _ _
    simp only [google_adk_agent.chat, google_adk_agent.chatBody, h1, h2]
    cases hrn : runner ([] ++ [userTurn m]) <;> simp [pyTry, hrn]

/-- An example LangGraph adapter state with an already-advanced thread id
and an empty checkpointer, used to instantiate the reachability invariant. -/
def lgStateEx : langgraph_agent.AgentState := ⟨5, fun _ => []⟩

/-- C3 witness: the theorem instantiated at a concrete message and a
concrete well-formed LangGraph state. -/
theorem c3_reset_then_fresh_witness :
    langgraph_agent.chatInput (langgraph_agent.clear_chat lgStateEx).1 "hello"
      = [userTurn "hello"] :=
  ((c3_reset_then_fresh "hello").2.1 lgStateEx (fun _ _ => rfl)).1

/-- C6: `clear_chat` is idempotent on every adapter: a second call on an
already-reset state still returns `True` without raising, and the resulting
conversation state is observably "no conversation yet" (equal to the
freshly-constructed state, or carrying an empty visible history where the
reset works by moving to a fresh thread or session). -/
theorem c6_clear_chat_idempotent :
    (∀ s : crewai_agent.AgentState,
        (crewai_agent.clear_chat s).2 = true
        ∧ (crewai_agent.clear_chat (crewai_agent.clear_chat s).1).2 = true
        ∧ (crewai_agent.clear_chat (crewai_agent.clear_chat s).1).1
            = crewai_agent.initState)
    ∧ (∀ s : langgraph_agent.AgentState, langgraph_agent.WF s →
        (langgraph_agent.clear_chat s).2 = true
        ∧ (langgraph_agent.clear_chat (langgraph_agent.clear_chat s).1).2 = true
        ∧ langgraph_agent.observableHistory
            (langgraph_agent.clear_chat (langgraph_agent.clear_chat s).1).1
          = langgraph_agent.observableHistory langgraph_agent.initState)
    ∧ (∀ s : openai_responses_agent.AgentState,
        (openai_responses_agent.clear_chat s).2 = true
        ∧ (openai_responses_agent.clear_chat
            (openai_responses_agent.clear_chat s).1).2 = true
        ∧ (openai_responses_agent.clear_chat
            (openai_responses_agent.clear_chat s).1).1
          = openai_responses_agent.initState)
    ∧ (∀ s : openai_agents_sdk_agent.AgentState,
        (openai_agents_sdk_agent.clear_chat s).2 = true
        ∧ (openai_agents_sdk_agent.clear_chat
            (openai_agents_sdk_agent.clear_chat s).1).2 = true
        ∧ (openai_agents_sdk_agent.clear_chat
            (openai_agents_sdk_agent.clear_chat s).1).1
          = openai_agents_sdk_agent.initState)
    ∧ (∀ (s : google_adk_agent.AgentState) (sid1 sid2 : String),
        (google_adk_agent.clear_chat s sid1).2 = true
        ∧ (google_adk_agent.clear_chat
            (google_adk_agent.clear_chat s sid1).1 sid2).2 = true
        ∧ google_adk_agent.sessionHistory
            (google_adk_agent.clear_chat
              (google_adk_agent.clear_chat s sid1).1 sid2).1 = [])
    ∧ (∀ s : smolagents_agent.AgentState,
        (smolagents_agent.clear_chat s).2 = true
        ∧ (smolagents_agent.clear_chat (smolagents_agent.clear_chat s).1).2
            = true
        ∧ (smolagents_agent.clear_chat (smolagents_agent.clear_chat s).1).1
            = smolagents_agent.initState)
    ∧ (∀ s : llama_index_agent.AgentState,
        (llama_index_agent.clear_chat s).2 = true
        ∧ (llama_index_agent.clear_chat (llama_index_agent.clear_chat s).1).2
            = true
        ∧ (llama_index_agent.clear_chat (llama_index_agent.clear_chat s).1).1
            = llama_index_agent.initState) := by
  refine ⟨fun _ => ⟨rfl, rfl, rfl⟩, ?_, fun _ => ⟨rfl, rfl, rfl⟩,
    fun _ => ⟨rfl, rfl, rfl⟩, ?_, fun _ => ⟨rfl, rfl, rfl⟩,
    fun _ => ⟨rfl, rfl, rfl⟩⟩
  · intro s hwf
    refine ⟨rfl, rfl, ?_⟩
    have hmem : s.memory (s.thread_id + 1 + 1) = [] := hwf _ (by omega)
    simp [langgraph_agent.clear_chat, langgraph_agent.observableHistory,
      langgraph_agent.initState, pyTry, hmem]
  · intro s sid1 sid2
    refine ⟨rfl, rfl, ?_⟩
    simp only [google_adk_agent.clear_chat, google_adk_agent.sessionHistory,
      pyTry]
    exact lookupD_assocSet_self _ _ _ _

/-- C6 witness: the theorem instantiated at a concrete well-formed LangGraph
state: both resets report success and the observable history is empty. -/
theorem c6_clear_chat_idempotent_witness :
    (langgraph_agent.clear_chat lgStateEx).2 = true
    ∧ langgraph_agent.observableHistory
        (langgraph_agent.clear_chat (langgraph_agent.clear_chat lgStateEx).1).1
      = langgraph_agent.observableHistory langgraph_agent.initState :=
  ⟨(c6_clear_chat_idempotent.2.1 lgStateEx (fun _ _ => rfl)).1,
   (c6_clear_chat_idempotent.2.1 lgStateEx (fun _ _ => rfl)).2.2⟩

/-- C7: when the selection switches from agent A to a different agent B, the
host-visible Turn history is reset to empty, the selection records B, and
the held instance is exactly the freshly constructed instance for B
(whatever was held before is discarded): the resulting `agent` field depends
only on B's construction outcome. -/
theorem c7_switch_resets (s : agent_ui.SessionState) (a b : String)
    (oc : agent_ui.CandidateOutcome)
    (hcur : s.current_agent_type = some a) (hne : a ≠ b) :
    (agent_ui.runScriptSelection s b oc).messages = []
    ∧ (agent_ui.runScriptSelection s b oc).current_agent_type = some b
    ∧ (agent_ui.runScriptSelection s b oc).agent
        = agent_ui.safe_get_agent_instance oc := by
  cases hoc : agent_ui.safe_get_agent_instance oc <;>
    simp [agent_ui.runScriptSelection, hcur, hne, hoc]

/-- C7 witness: switching a concrete session from `crewai_agent` to
`langgraph_agent` empties the visible history and installs the fresh
LangGraph instance. -/
theorem c7_switch_resets_witness :
    (agent_ui.runScriptSelection
        ⟨some "crewai_agent", some ⟨true, "CrewAI Agent", true, true⟩,
         [userTurn "hi", assistantTurn "hello"]⟩
        "langgraph_agent"
        (agent_ui.CandidateOutcome.constructed
          ⟨true, "LangGraph Agent", true, true⟩)).messages = []
    ∧ (agent_ui.runScriptSelection
        ⟨some "crewai_agent", some ⟨true, "CrewAI Agent", true, true⟩,
         [userTurn "hi", assistantTurn "hello"]⟩
        "langgraph_agent"
        (agent_ui.CandidateOutcome.constructed
          ⟨true, "LangGraph Agent", true, true⟩)).agent
      = agent_ui.safe_get_agent_instance
          (agent_ui.CandidateOutcome.constructed
            ⟨true, "LangGraph Agent", true, true⟩) := by
  have h := c7_switch_resets
    ⟨some "crewai_agent", some ⟨true, "CrewAI Agent", true, true⟩,
     [userTurn "hi", assistantTurn "hello"]⟩
    "crewai_agent" "langgraph_agent"
    (agent_ui.CandidateOutcome.constructed ⟨true, "LangGraph Agent", true, true⟩)
    rfl (by decide)
  exact ⟨h.1, h.2.2⟩

/-- C4 counterexample: a constructed candidate whose `name` is the empty
string (so it lacks a non-empty identity) nevertheless appears in the
discovered map — the validator only checks `hasattr(obj, "name")`, not
non-emptiness.  This refutes the claim as stated. -/
theorem c4_empty_name_discovered_counterexample :
    ("empty_agent", "") ∈ agent_ui.get_available_agents
      [("empty_agent.py",
        agent_ui.CandidateOutcome.constructed ⟨true, "", true, true⟩)]
    ∧ (agent_ui.AgentObj.mk true "" true true).name.length = 0 := by
  decide

/-- C4 (amended): a candidate that raises during import or construction,
whose module lacks a callable `Agent`, whose constructor returns `None`, or
whose instance lacks a `name` attribute or a callable `chat`, never appears
in the discovered map; every candidate that yields a valid instance (even
one with an empty name) is discovered with its display name — one bad
backend never blocks the others.  Module names are assumed distinct, as
`os.listdir` returns distinct filenames. -/
theorem c4_amended_discovery_filter
    (listing : List (String × agent_ui.CandidateOutcome))
    (hnodup : ((listing.filter
        (fun e => strEndsWith e.1 agent_ui.agentSuffixStr)).map
        (fun e => moduleNameOf e.1)).Nodup)
    (file : String) (oc : agent_ui.CandidateOutcome)
    (hmem : (file, oc) ∈ listing)
    (hsuf : strEndsWith file agent_ui.agentSuffixStr = true) :
    (agent_ui.safe_get_agent_instance oc = none →
        moduleNameOf file ∉ keysOf (agent_ui.get_available_agents listing))
    ∧ ∀ obj : agent_ui.AgentObj, agent_ui.safe_get_agent_instance oc = some obj →
        (moduleNameOf file, obj.name) ∈ agent_ui.get_available_agents listing := by
  constructor
  · intro hnone
    apply agent_ui.discover_keys_not_mem listing [] _ (by simp [keysOf])
    intro e he hend2 hmod
    have hinj := List.inj_on_of_nodup_map hnodup
    have hfile : e = (file, oc) :=
      hinj (List.mem_filter.mpr ⟨he, hend2⟩)
        (List.mem_filter.mpr ⟨hmem, hsuf⟩) hmod
    rw [hfile]
    exact hnone
  · intro obj hobj
    exact agent_ui.discover_mem_of_entry listing [] file oc obj hnodup hmem
      hsuf hobj

/-- An example discovery listing with one broken candidate among valid
ones. -/
def c4Listing : List (String × agent_ui.CandidateOutcome) :=
  [("broken_agent.py", agent_ui.CandidateOutcome.constructionError),
   ("good_agent.py",
     agent_ui.CandidateOutcome.constructed ⟨true, "Good Agent", true, true⟩)]

/-- C4 witness: in a listing with a broken candidate and a valid one, the
broken module is absent from the map and the valid one is discovered. -/
theorem c4_amended_discovery_filter_witness :
    moduleNameOf "broken_agent.py"
        ∉ keysOf (agent_ui.get_available_agents c4Listing)
    ∧ (moduleNameOf "good_agent.py", "Good Agent")
        ∈ agent_ui.get_available_agents c4Listing :=
  ⟨(c4_amended_discovery_filter c4Listing (by decide) "broken_agent.py"
      agent_ui.CandidateOutcome.constructionError (by decide) (by decide)).1 rfl,
   (c4_amended_discovery_filter c4Listing (by decide) "good_agent.py"
      (agent_ui.CandidateOutcome.constructed ⟨true, "Good Agent", true, true⟩)
      (by decide) (by decide)).2 ⟨true, "Good Agent", true, true⟩ rfl⟩

/-- An example directory listing given in reverse-lexicographic order. -/
def c5Listing : List (String × agent_ui.CandidateOutcome) :=
  [("b_agent.py",
     agent_ui.CandidateOutcome.constructed ⟨true, "B Agent", true, true⟩),
   ("a_agent.py",
     agent_ui.CandidateOutcome.constructed ⟨true, "A Agent", true, true⟩)]

/-- C5 counterexample: discovery enumerates candidates in the raw
`os.listdir` order, not lexicographically: on a listing given in
reverse-lexicographic order the discovered map keeps that order
(`b_agent` before `a_agent`), although `a_agent` sorts first.  This
refutes the claim that enumeration is lexicographic by source name. -/
theorem c5_not_lexicographic_counterexample :
    agent_ui.get_available_agents c5Listing
      = [("b_agent", "B Agent"), ("a_agent", "A Agent")]
    ∧ keysOf (agent_ui.get_available_agents c5Listing) ≠ ["a_agent", "b_agent"]
    ∧ ("a_agent" : String).data < ("b_agent" : String).data := by
  refine ⟨by decide, by decide, by decide⟩

/-- C5 (amended): discovery is deterministic as a function of the directory
listing, but its enumeration order is exactly the listing order as returned
by `os.listdir` (no sorting): with distinct module names — as in a real
directory — the discovered map is precisely the surviving candidates in
listing order, so no duplicate-id tie-break ever arises. -/
theorem c5_amended_listing_order
    (listing : List (String × agent_ui.CandidateOutcome))
    (hnodup : ((listing.filter
        (fun e => strEndsWith e.1 agent_ui.agentSuffixStr)).map
        (fun e => moduleNameOf e.1)).Nodup) :
    agent_ui.get_available_agents listing
      = listing.filterMap (fun e =>
          if strEndsWith e.1 agent_ui.agentSuffixStr then
            (agent_ui.safe_get_agent_instance e.2).map
              (fun obj => (moduleNameOf e.1, obj.name))
          else none) := by
  have h := agent_ui.discover_order listing []
    (by intro e _ _; simp [keysOf]) hnodup
  simpa [agent_ui.get_available_agents] using h

/-- C5 witness: the amended theorem instantiated on the concrete
reverse-lexicographic listing. -/
theorem c5_amended_listing_order_witness :
    agent_ui.get_available_agents c5Listing
      = c5Listing.filterMap (fun e =>
          if strEndsWith e.1 agent_ui.agentSuffixStr then
            (agent_ui.safe_get_agent_instance e.2).map
              (fun obj => (moduleNameOf e.1, obj.name))
          else none) :=
  c5_amended_listing_order c5Listing (by decide)

end AgentExamples
